import Mathlib

/-
  Verification of the mcp-swarm supervisor runtime against its specification.

  The definitions below are a shallow embedding of the TypeScript source:
    - src/process-manager.ts  (spawn / stop / reconnect / scale-up / stderr capture)
    - src/tools.ts            (add_managed_server, create_profile, delete_profile)
    - src/db.ts               (SQLite-backed upsert semantics, modelled as an
                               association list keyed by name)
    - src/config.ts           (default constants)

  JavaScript strings are modelled as lists of characters (JsStr); a JS
  string s corresponds to s.data.  Fallible connection attempts are
  modelled by a boolean outcome oracle passed to the spawn functions,
  since the actual transport connect is I/O.
-/

set_option autoImplicit false

namespace McpSwarm

/-- From src/config.ts: MAX_SERVER_INSTANCES default (no env override). -/
def MAX_SERVER_INSTANCES : Nat := 4

/-- From src/config.ts: AUTO_RECONNECT_MAX_RETRIES = 3. -/
def AUTO_RECONNECT_MAX_RETRIES : Nat := 3

/-- From src/process-manager.ts: MAX_STDERR_LINES = 50. -/
def MAX_STDERR_LINES : Nat := 50

/-- From src/process-manager.ts: MAX_STDERR_LINE_LENGTH = 1000. -/
def MAX_STDERR_LINE_LENGTH : Nat := 1000

/-- A JavaScript string, modelled as its sequence of characters. -/
abbrev JsStr := List Char

/-- Transport types of src/types.ts (ServerConfig.type).  The spec calls
STDIO workers LOCAL. -/
inductive TransportType where
  | STDIO
  | SSE
  | STREAMABLE_HTTP
deriving DecidableEq, Repr

/-- ServerConfig from src/types.ts (fields relevant to the claims; env and
headers carry no weight in any claim and are omitted). -/
structure ServerConfig where
  name : String
  type : TransportType
  command : Option String := none
  args : List String := []
  url : Option String := none
  description : Option String := none
  stateful : Bool := false
deriving DecidableEq, Repr

/-- Lifecycle states of a ManagedServer (src/types.ts status field). -/
inductive Status where
  | connecting
  | connected
  | error
  | stopped
deriving DecidableEq, Repr

/-- name.includes("@") from the source: marks session-owned instances. -/
def nameHasAt (name : String) : Bool :=
  name.data.contains '@'

/-- name.includes("#") from the source: marks pool-scaled instances. -/
def nameHasHash (name : String) : Bool :=
  name.data.contains '#'

/-- A name of a derived (scaled or session) instance; such names are
skipped by every persistence sweep in src/process-manager.ts. -/
def isDerivedName (name : String) : Bool :=
  nameHasHash name || nameHasAt name

/- ===== stderr capture (src/process-manager.ts, _spawnStdio data handler) ===== -/

/-- The per-line truncation in the stderr data handler:
rawLine.length > MAX_STDERR_LINE_LENGTH ? rawLine.slice(0, 1000) + "..." : rawLine. -/
def truncateStderrLine (rawLine : JsStr) : JsStr :=
  if rawLine.length > MAX_STDERR_LINE_LENGTH then
    rawLine.take MAX_STDERR_LINE_LENGTH ++ "...".data
  else rawLine

/-- One iteration of the capture loop: push the truncated line, then
shift the oldest line out when the buffer exceeds MAX_STDERR_LINES. -/
def pushStderrLine (buffer : List JsStr) (rawLine : JsStr) : List JsStr :=
  let buffer' := buffer ++ [truncateStderrLine rawLine]
  if buffer'.length > MAX_STDERR_LINES then buffer'.drop 1 else buffer'

/-- chunk.toString().split("\n").filter(Boolean): split on newlines and
drop empty lines (empty strings are falsy in JS). -/
def chunkLines (chunk : JsStr) : List JsStr :=
  (chunk.splitOn '\n').filter (fun l => !l.isEmpty)

/-- The whole data handler body: fold every line of the chunk into the
stderr ring buffer. -/
def onStderrData (buffer : List JsStr) (chunk : JsStr) : List JsStr :=
  (chunkLines chunk).foldl pushStderrLine buffer

/- ===== onclose handlers and reconnect scheduling ===== -/

/-- Lowercased join of the stderr buffer:
managed.stderrBuffer.join("\n").toLowerCase(). -/
def stderrTextLower (buffer : List JsStr) : JsStr :=
  (List.intercalate "\n".data buffer).map Char.toLower

/-- The permanent-failure marker substrings tested in _spawnStdio. -/
def permanentMarkers : List JsStr :=
  ["e404".data, "not found".data, "enoent".data,
   "command not found".data, "not in this registry".data]

/-- isPermanentFailure from the stdio onclose handler: some marker is a
substring of the lowercased stderr text. -/
def isPermanentFailure (buffer : List JsStr) : Bool :=
  permanentMarkers.any (fun m => decide (m <:+: stderrTextLower buffer))

/-- Whether _scheduleReconnect, called with the given instance state,
actually sets a reconnect timer.  It returns early when the status is
stopped or the attempt budget is exhausted. -/
def scheduleReconnectFires (status : Status) (reconnectAttempts : Nat) : Bool :=
  !(status == Status.stopped) && decide (reconnectAttempts < AUTO_RECONNECT_MAX_RETRIES)

/-- The transport.onclose handler installed by _spawnStdio, reduced to
whether it ends up scheduling a reconnect.  The handler only acts when the
instance was connected or connecting; it then sets status to error, skips
session-scoped names (containing an at sign), skips permanent failures
detected in stderr, and otherwise calls _scheduleReconnect (with status
now error). -/
def stdioOncloseSchedules (name : String) (status : Status)
    (stderrBuffer : List JsStr) (reconnectAttempts : Nat) : Bool :=
  if status == Status.connected || status == Status.connecting then
    if nameHasAt name then false
    else if isPermanentFailure stderrBuffer then false
    else scheduleReconnectFires Status.error reconnectAttempts
  else false

/-- The transport.onclose handler installed by _spawnSSE, reduced to
whether it schedules a reconnect.  It consults neither the instance name
nor the stderr buffer: after setting status to error it calls
_scheduleReconnect unconditionally. -/
def sseOncloseSchedules (status : Status) (reconnectAttempts : Nat) : Bool :=
  if status == Status.connected || status == Status.connecting then
    scheduleReconnectFires Status.error reconnectAttempts
  else false

/-- The transport.onclose handler installed by _spawnStreamableHTTP;
textually identical in structure to the SSE one. -/
def streamableHttpOncloseSchedules (status : Status) (reconnectAttempts : Nat) : Bool :=
  if status == Status.connected || status == Status.connecting then
    scheduleReconnectFires Status.error reconnectAttempts
  else false

/- ===== live index, persistence store, declare path ===== -/

/-- ManagedServer from src/types.ts, restricted to the fields the claims
consult (client, transport, tools and pid are runtime handles with no
bearing on persistence decisions). -/
structure ManagedServer where
  name : String
  config : ServerConfig
  status : Status
  errorMessage : Option String := none
  reconnectAttempts : Nat := 0
deriving DecidableEq, Repr

/-- The supervisor state the persistence claims range over: the live
server index (a name-keyed map, kept in insertion order) and the
persisted workers table of the SQLite store. -/
structure SwarmState where
  servers : List ManagedServer
  store : List (String × ServerConfig)
deriving DecidableEq, Repr

/-- INSERT ... ON CONFLICT(name) DO UPDATE of src/db.ts: replace the row
with the given key, or append a fresh row. -/
def upsertByName {β : Type} : List (String × β) → String → β → List (String × β)
  | [], n, v => [(n, v)]
  | e :: rest, n, v => if e.1 == n then (n, v) :: rest else e :: upsertByName rest n v

/-- db.upsertServer: the workers table is keyed by config.name. -/
def upsertServerStore (store : List (String × ServerConfig)) (cfg : ServerConfig) :
    List (String × ServerConfig) :=
  upsertByName store cfg.name cfg

/-- saveLocalConfig from src/process-manager.ts: upsert the config of
every live server whose name carries no hash and no at sign.  Note that
the sweep does not consult the server status. -/
def saveLocalConfig : List ManagedServer → List (String × ServerConfig) →
    List (String × ServerConfig)
  | [], store => store
  | s :: rest, store =>
    saveLocalConfig rest
      (if isDerivedName s.name then store else upsertServerStore store s.config)

/-- stopServer from src/process-manager.ts, restricted to its effect on
the live index and the workers table: when the named server is live it is
deleted from the index, and, for primary names (no hash, no at sign), the
remaining servers are swept into the store via saveLocalConfig. -/
def stopServerModel (st : SwarmState) (name : String) : SwarmState :=
  if st.servers.any (fun s => s.name == name) then
    let servers' := st.servers.filter (fun s => !(s.name == name))
    let store' := if isDerivedName name then st.store else saveLocalConfig servers' st.store
    ⟨servers', store'⟩
  else st

/-- _doSpawn from src/process-manager.ts.  The transport connect is I/O;
its outcome is the boolean oracle ok.  Any existing same-named server is
stopped first; the new ManagedServer enters the index; on success the
status becomes connected and savePids/saveLocalConfig run; on failure the
status becomes error, an error message is recorded and nothing is saved
(the errored entry stays in the index). -/
def doSpawn (ok : Bool) (config : ServerConfig) (st : SwarmState) :
    ManagedServer × SwarmState :=
  let st1 := stopServerModel st config.name
  if ok then
    let managed : ManagedServer := ⟨config.name, config, Status.connected, none, 0⟩
    let servers' := st1.servers ++ [managed]
    ⟨managed, ⟨servers', saveLocalConfig servers' st1.store⟩⟩
  else
    let managed : ManagedServer :=
      ⟨config.name, config, Status.error, some "spawn failed", 0⟩
    ⟨managed, ⟨st1.servers ++ [managed], st1.store⟩⟩

/-- The add_managed_server tool handler from src/tools.ts: spawn first;
if the result is in error, return an error result without persisting;
otherwise persist the config with db.upsertServer.  The boolean in the
result is the isError flag of the tool response. -/
def addManagedServer (ok : Bool) (config : ServerConfig) (st : SwarmState) :
    Bool × SwarmState :=
  let r := doSpawn ok config st
  if r.1.status == Status.error then (true, r.2)
  else (false, ⟨r.2.servers, upsertServerStore r.2.store config⟩)

/- ===== pool scaling (src/process-manager.ts _handleScaleUp) ===== -/

/-- ServerInstance from src/types.ts (queue registration records). -/
structure ServerInstance where
  internalName : String
  baseName : String
  index : Nat
  busy : Bool
  lastActiveAt : Nat
deriving DecidableEq, Repr

/-- The while loop of _handleScaleUp searching the next free index:
newIndex starts at 1 and increments while taken.  Fuel-bounded recursion;
used.length + 1 steps always suffice. -/
def nextFreeIndexAux (used : List Nat) : Nat → Nat → Nat
  | 0, k => k
  | fuel + 1, k => if used.contains k then nextFreeIndexAux used fuel (k + 1) else k

/-- The smallest positive index not currently in use for the pool. -/
def nextFreeIndex (used : List Nat) : Nat :=
  nextFreeIndexAux used (used.length + 1) 1

/-- Outcome of one _handleScaleUp invocation.
skipInFlight: a scale-up for this base is already in flight, return
without touching the pending flag.  clearPendingOnly: refuse and clear
the pending scale-up flag.  spawnInstance: clone the primary config under
the derived name and spawn it. -/
inductive ScaleDecision where
  | skipInFlight
  | clearPendingOnly
  | spawnInstance (internalName : String) (index : Nat)
deriving DecidableEq, Repr

/-- _handleScaleUp from src/process-manager.ts, as the decision it takes:
bail out while one is in flight; refuse (clearing the pending flag) at
capacity, without a live primary, for non-STDIO primaries and for
stateful primaries; otherwise spawn base#k for the smallest free k. -/
def handleScaleUp (serverName : String) (scalingInProgress : Bool)
    (instances : List ServerInstance) (primary : Option ServerConfig) : ScaleDecision :=
  if scalingInProgress then ScaleDecision.skipInFlight
  else if instances.length ≥ MAX_SERVER_INSTANCES then ScaleDecision.clearPendingOnly
  else
    match primary with
    | none => ScaleDecision.clearPendingOnly
    | some p =>
      if !(p.type == TransportType.STDIO) || p.stateful then ScaleDecision.clearPendingOnly
      else
        let k := nextFreeIndex (instances.map (fun i => i.index))
        ScaleDecision.spawnInstance (serverName ++ "#" ++ toString k) k

/- ===== profiles (src/tools.ts create_profile / delete_profile, src/db.ts) ===== -/

/-- One server entry as accepted by the create_profile input schema. -/
structure ProfileEntry where
  name : String
  command : String
  args : List String
  description : Option String := none
deriving DecidableEq, Repr

/-- One server entry as stored inside a profile row. -/
structure StoredProfileServer where
  name : String
  command : String
  args : List String
  description : String
deriving DecidableEq, Repr

/-- A profile row (db.DbProfile without the redundant name field); also
used for the built-in profiles loaded from profiles.json. -/
structure DbProfile where
  description : String
  servers : List StoredProfileServer
deriving DecidableEq, Repr

/-- JS s.description || s.name — undefined and the empty string both
fall back to the server name. -/
def jsOrElse (d : Option String) (fallback : String) : String :=
  match d with
  | none => fallback
  | some s => if s == "" then fallback else s

/-- The bundle that create_profile stores for the given inputs. -/
def profileBundleOf (description : String) (servers : List ProfileEntry) : DbProfile :=
  ⟨description, servers.map (fun s => ⟨s.name, s.command, s.args, jsOrElse s.description s.name⟩)⟩

/-- The create_profile tool handler from src/tools.ts: reject an empty
server list, otherwise db.upsertProfile under the given name.  The
handler never consults the built-in profile set.  The boolean is the
isError flag of the tool response. -/
def createProfile (store : List (String × DbProfile)) (name description : String)
    (servers : List ProfileEntry) : Bool × List (String × DbProfile) :=
  if servers.length == 0 then (true, store)
  else (false, upsertByName store name (profileBundleOf description servers))

/-- db.removeProfile: DELETE FROM profiles WHERE name; reports whether a
row was removed. -/
def removeProfileDb (store : List (String × DbProfile)) (name : String) :
    Bool × List (String × DbProfile) :=
  (store.any (fun e => e.1 == name), store.filter (fun e => !(e.1 == name)))

/-- The delete_profile tool handler from src/tools.ts: built-in names are
refused; otherwise remove from the store, failing when nothing matched. -/
def deleteProfile (profilesConfig : List (String × DbProfile))
    (store : List (String × DbProfile)) (name : String) :
    Bool × List (String × DbProfile) :=
  if (profilesConfig.lookup name).isSome then (true, store)
  else
    let r := removeProfileDb store name
    (!r.1, r.2)

/- ===== concrete inputs used by counterexamples and witnesses ===== -/

/-- A STDIO config whose spawn will be taken to fail (C1). -/
def cfgBadC1 : ServerConfig :=
  { name := "badsrv", type := TransportType.STDIO, command := some "nope" }

/-- A STDIO config whose spawn will be taken to succeed (C1). -/
def cfgGoodC1 : ServerConfig :=
  { name := "goodsrv", type := TransportType.STDIO, command := some "ok" }

/-- A built-in profile table owning the name dev (C4). -/
def builtinsC4 : List (String × DbProfile) :=
  [("dev", ⟨"builtin dev profile", [⟨"filesystem", "npx", ["-y", "@modelcontextprotocol/server-filesystem"], "files"⟩]⟩)]

/-- A well-formed create_profile entry (C4). -/
def entryC4 : ProfileEntry :=
  { name := "fetch", command := "npx", args := ["-y", "fetch-mcp"] }

/-- An SSE primary config, for which scaling must be refused (C3). -/
def cfgSseC3 : ServerConfig :=
  { name := "remote", type := TransportType.SSE, url := some "http://localhost:9/sse" }

/-- A busy registered primary instance of the pool w (C3). -/
def instPrimaryC3 : ServerInstance :=
  { internalName := "w", baseName := "w", index := 0, busy := true, lastActiveAt := 0 }

/- ===== helper lemmas: association-list upsert ===== -/

theorem lookup_upsertByName_self {β : Type} (store : List (String × β)) (n : String) (v : β) :
    (upsertByName store n v).lookup n = some v := by
  induction store with
  | nil => simp [upsertByName, List.lookup]
  | cons e rest ih =>
    by_cases h : e.1 = n
    · simp [upsertByName, h, List.lookup]
    · have hb : (e.1 == n) = false := beq_eq_false_iff_ne.mpr h
      have hb2 : (n == e.1) = false := beq_eq_false_iff_ne.mpr (Ne.symm h)
      simp [upsertByName, hb, List.lookup, hb2, ih]

theorem lookup_upsertByName_ne {β : Type} (store : List (String × β)) (n m : String) (v : β)
    (h : m ≠ n) : (upsertByName store n v).lookup m = store.lookup m := by
  induction store with
  | nil => simp [upsertByName, List.lookup, beq_eq_false_iff_ne.mpr h]
  | cons e rest ih =>
    by_cases he : e.1 = n
    · have hmne : (m == n) = false := beq_eq_false_iff_ne.mpr h
      have hme : (m == e.1) = false := by
        rw [he]; exact hmne
      simp [upsertByName, he, List.lookup, hmne, hme]
    · have hb : (e.1 == n) = false := beq_eq_false_iff_ne.mpr he
      simp [upsertByName, hb, List.lookup, ih]

/- ===== C2: reconnect scheduling for session-owned instances ===== -/

/-- C2 (counterexample): the claim states that for instances whose
internal name contains an at sign a transport close never schedules a
reconnect, regardless of transport type.  This is false: the SSE (and
streamable HTTP) onclose handlers schedule a reconnect without consulting
the instance name.  Concretely, a connected instance named
worker@abcd1234 with zero prior attempts gets a reconnect scheduled on an
SSE transport close. -/
theorem C2_counterexample :
    ¬ (∀ (name : String) (status : Status) (buffer : List JsStr) (attempts : Nat),
        nameHasAt name = true →
        stdioOncloseSchedules name status buffer attempts = false ∧
        sseOncloseSchedules status attempts = false ∧
        streamableHttpOncloseSchedules status attempts = false) := by
  intro h
  have h2 := (h "worker@abcd1234" Status.connected [] 0 (by decide)).2.1
  exact absurd h2 (by decide)

/-- C2 (amended): only the LOCAL (STDIO) onclose handler skips the
reconnect for session-owned instances (names containing an at sign); the
SSE and streamable HTTP onclose handlers schedule a reconnect for any
connected or connecting instance with remaining retry budget, regardless
of its name. -/
theorem C2_amended_session_skip_is_stdio_only :
    ∀ (name : String) (status : Status) (buffer : List JsStr) (attempts : Nat),
      (nameHasAt name = true → stdioOncloseSchedules name status buffer attempts = false) ∧
      (status = Status.connected ∨ status = Status.connecting →
        sseOncloseSchedules status attempts =
          decide (attempts < AUTO_RECONNECT_MAX_RETRIES) ∧
        streamableHttpOncloseSchedules status attempts =
          decide (attempts < AUTO_RECONNECT_MAX_RETRIES)) := by
  intro name status buffer attempts
  constructor
  · intro h
    cases status <;> simp [stdioOncloseSchedules, h]
  · intro h
    rcases h with h | h <;> subst h <;> exact ⟨rfl, rfl⟩

/-- C2 (witness): the amended theorem applied to the connected session
instance worker@abcd1234 with zero attempts. -/
theorem C2_witness :
    stdioOncloseSchedules "worker@abcd1234" Status.connected [] 0 = false ∧
    sseOncloseSchedules Status.connected 0 =
      decide (0 < AUTO_RECONNECT_MAX_RETRIES) ∧
    streamableHttpOncloseSchedules Status.connected 0 =
      decide (0 < AUTO_RECONNECT_MAX_RETRIES) :=
  ⟨(C2_amended_session_skip_is_stdio_only "worker@abcd1234" Status.connected [] 0).1 (by decide),
   (C2_amended_session_skip_is_stdio_only "worker@abcd1234" Status.connected [] 0).2 (Or.inl rfl)⟩

/- ===== C4: create_profile versus built-in profile names ===== -/

/-- C4 (counterexample): the claim states that create_profile fails with
a Conflict error whenever the profile name equals a built-in name, and
that a user bundle is never stored under a built-in name.  The handler
performs no built-in check: creating a profile named dev while dev is a
built-in succeeds and stores the user bundle under dev. -/
theorem C4_counterexample :
    (builtinsC4.lookup "dev").isSome = true ∧
    (createProfile [] "dev" "desc" [entryC4]).1 = false ∧
    (createProfile [] "dev" "desc" [entryC4]).2.lookup "dev" =
      some (profileBundleOf "desc" [entryC4]) := by
  decide

/-- C4 (amended): create_profile never checks built-in names: for any
non-empty server list it succeeds and upserts the bundle into the
persistence store under the given name, even when that name is a
built-in profile name.  The only built-in protection is in
delete_profile, which refuses built-in names and leaves the store
unchanged. -/
theorem C4_amended_create_ignores_builtins :
    ∀ (profilesConfig store : List (String × DbProfile)) (name description : String)
      (servers : List ProfileEntry),
      (servers ≠ [] →
        (createProfile store name description servers).1 = false ∧
        (createProfile store name description servers).2.lookup name =
          some (profileBundleOf description servers)) ∧
      ((profilesConfig.lookup name).isSome = true →
        deleteProfile profilesConfig store name = (true, store)) := by
  intro pc store name description servers
  constructor
  · intro h
    have hlen : (servers.length == 0) = false := by
      cases servers with
      | nil => exact absurd rfl h
      | cons a t => rfl
    exact ⟨by simp [createProfile, hlen], by simp [createProfile, hlen, lookup_upsertByName_self]⟩
  · intro h
    simp [deleteProfile, h]

/-- C4 (witness): the amended theorem applied to the built-in name dev,
an empty user store and one server entry. -/
theorem C4_witness :
    ((createProfile [] "dev" "desc" [entryC4]).1 = false ∧
     (createProfile [] "dev" "desc" [entryC4]).2.lookup "dev" =
       some (profileBundleOf "desc" [entryC4])) ∧
    deleteProfile builtinsC4 [] "dev" = (true, []) :=
  ⟨(C4_amended_create_ignores_builtins builtinsC4 [] "dev" "desc" [entryC4]).1 (by decide),
   (C4_amended_create_ignores_builtins builtinsC4 [] "dev" "desc" [entryC4]).2 (by decide)⟩

/- ===== C3: pool scale-up guards and index choice ===== -/

theorem length_filter_succ_le (t : List Nat) (k : Nat) :
    (t.filter (fun x => decide (k + 1 ≤ x))).length ≤
      (t.filter (fun x => decide (k ≤ x))).length := by
  induction t with
  | nil => simp
  | cons a t ih =>
    by_cases h1 : k + 1 ≤ a
    · have h2 : k ≤ a := by omega
      simp only [List.filter_cons, decide_eq_true_eq, h1, h2, if_true, List.length_cons]
      omega
    · by_cases h2 : k ≤ a <;>
        simp only [List.filter_cons, decide_eq_true_eq, h1, h2, if_true, if_false,
          List.length_cons] <;> omega

theorem length_filter_succ_lt (used : List Nat) (k : Nat) (hk : k ∈ used) :
    (used.filter (fun x => decide (k + 1 ≤ x))).length <
      (used.filter (fun x => decide (k ≤ x))).length := by
  induction used with
  | nil => cases hk
  | cons a t ih =>
    rcases List.mem_cons.mp hk with rfl | hmem
    · have h1 : ¬ (k + 1 ≤ k) := by omega
      have h2 : k ≤ k := le_refl k
      simp only [List.filter_cons, decide_eq_true_eq, h1, h2, if_true, if_false,
        List.length_cons]
      have := length_filter_succ_le t k
      omega
    · have h3 := ih hmem
      by_cases h1 : k + 1 ≤ a
      · have h2 : k ≤ a := by omega
        simp only [List.filter_cons, decide_eq_true_eq, h1, h2, if_true, List.length_cons]
        omega
      · by_cases h2 : k ≤ a <;>
          simp only [List.filter_cons, decide_eq_true_eq, h1, h2, if_true, if_false,
            List.length_cons] <;> omega

/-- The fuel-bounded search of nextFreeIndexAux finds, given enough fuel,
an index that is at least the start index, is unused, and such that every
index between the start and it is in use. -/
theorem nextFreeIndexAux_spec :
    ∀ (fuel : Nat) (used : List Nat) (k : Nat),
      (used.filter (fun x => decide (k ≤ x))).length < fuel →
      k ≤ nextFreeIndexAux used fuel k ∧
      nextFreeIndexAux used fuel k ∉ used ∧
      ∀ j, k ≤ j → j < nextFreeIndexAux used fuel k → j ∈ used := by
  intro fuel
  induction fuel with
  | zero => intro used k h; omega
  | succ fuel ih =>
    intro used k h
    by_cases hc : used.contains k = true
    · have hkmem : k ∈ used := List.elem_iff.mp hc
      have hlt := length_filter_succ_lt used k hkmem
      obtain ⟨hle, hnot, hall⟩ := ih used (k + 1) (by omega)
      simp only [nextFreeIndexAux, hc, if_true]
      refine ⟨by omega, hnot, ?_⟩
      intro j hj1 hj2
      rcases Nat.eq_or_lt_of_le hj1 with rfl | hj3
      · exact hkmem
      · exact hall j (by omega) hj2
    · have hc' : used.contains k = false := by
        cases hcc : used.contains k
        · rfl
        · exact absurd hcc hc
      have hknotmem : k ∉ used := fun hm => hc (List.elem_iff.mpr hm)
      simp only [nextFreeIndexAux, hc', Bool.false_eq_true, if_false]
      exact ⟨le_refl k, hknotmem, fun j hj1 hj2 => absurd hj1 (by omega)⟩

/-- nextFreeIndex returns the smallest positive integer not in use. -/
theorem nextFreeIndex_spec (used : List Nat) :
    1 ≤ nextFreeIndex used ∧ nextFreeIndex used ∉ used ∧
      ∀ j, 1 ≤ j → j < nextFreeIndex used → j ∈ used := by
  have hf : (used.filter (fun x => decide (1 ≤ x))).length < used.length + 1 := by
    have := List.length_filter_le (fun x => decide (1 ≤ x)) used
    omega
  exact nextFreeIndexAux_spec (used.length + 1) used 1 hf

/-- C3: _handleScaleUp never spawns a scaled instance when the primary is
not STDIO (LOCAL), or is stateful, or the pool already holds
MAX_SERVER_INSTANCES (4) registered instances; under any of these
conditions (and with no scale-up already in flight for the base, the only
situation in which the queue delivers a signal) the handler only clears
the pending flag; and when it does spawn, the instance is named
base#k where k is the smallest positive integer not currently in use for
the pool. -/
theorem C3_scale_up_guards_and_least_index :
    ∀ (serverName iname : String) (inProg : Bool) (instances : List ServerInstance)
      (p : ServerConfig) (k : Nat),
      (¬ (p.type = TransportType.STDIO ∧ p.stateful = false ∧
            instances.length < MAX_SERVER_INSTANCES) →
        (∀ (iname2 : String) (k2 : Nat),
            handleScaleUp serverName inProg instances (some p) ≠
              ScaleDecision.spawnInstance iname2 k2) ∧
        (inProg = false →
            handleScaleUp serverName inProg instances (some p) =
              ScaleDecision.clearPendingOnly)) ∧
      (handleScaleUp serverName inProg instances (some p) =
          ScaleDecision.spawnInstance iname k →
        p.type = TransportType.STDIO ∧ p.stateful = false ∧
        instances.length < MAX_SERVER_INSTANCES ∧
        iname = serverName ++ "#" ++ toString k ∧
        1 ≤ k ∧ k ∉ instances.map ServerInstance.index ∧
        ∀ j, 1 ≤ j → j < k → j ∈ instances.map ServerInstance.index) := by
  intro serverName iname inProg instances p k
  cases inProg with
  | true =>
    constructor
    · intro _hn
      constructor
      · intro iname2 k2 h
        simp [handleScaleUp] at h
      · intro hf
        cases hf
    · intro h
      simp [handleScaleUp] at h
  | false =>
    by_cases hcap : instances.length ≥ MAX_SERVER_INSTANCES
    · constructor
      · intro _hn
        refine ⟨fun iname2 k2 h => ?_, fun _ => ?_⟩
        · simp [handleScaleUp, hcap] at h
        · simp [handleScaleUp, hcap]
      · intro h
        simp [handleScaleUp, hcap] at h
    · cases hguard : (!(p.type == TransportType.STDIO) || p.stateful) with
      | true =>
        constructor
        · intro _hn
          refine ⟨fun iname2 k2 h => ?_, fun _ => ?_⟩
          · simp [handleScaleUp, hcap, hguard] at h
          · simp [handleScaleUp, hcap, hguard]
        · intro h
          simp [handleScaleUp, hcap, hguard] at h
      | false =>
        obtain ⟨h1, hstateful⟩ := Bool.or_eq_false_iff.mp hguard
        have hstdio : p.type = TransportType.STDIO := by
          cases hb : (p.type == TransportType.STDIO) with
          | true => exact beq_iff_eq.mp hb
          | false => rw [hb] at h1; cases h1
        have hcap' : instances.length < MAX_SERVER_INSTANCES := by omega
        obtain ⟨hk1, hknot, hall⟩ := nextFreeIndex_spec (instances.map ServerInstance.index)
        constructor
        · intro hn
          exact absurd ⟨hstdio, hstateful, hcap'⟩ hn
        · intro h
          have hred : handleScaleUp serverName false instances (some p) =
              ScaleDecision.spawnInstance
                (serverName ++ "#" ++
                  toString (nextFreeIndex (instances.map ServerInstance.index)))
                (nextFreeIndex (instances.map ServerInstance.index)) := by
            simp [handleScaleUp, hcap, hguard]
          rw [hred] at h
          injection h with hname hidx
          subst hidx
          subst hname
          exact ⟨hstdio, hstateful, hcap', rfl, hk1, hknot, hall⟩

/-- C3 (witness): the theorem applied to an SSE primary (scale-up refused,
pending flag cleared) and to a saturated one-instance STDIO pool (scale-up
spawns w#1, the smallest free positive index). -/
theorem C3_witness :
    handleScaleUp "remote" false [] (some cfgSseC3) = ScaleDecision.clearPendingOnly ∧
    ("w#1" = "w" ++ "#" ++ toString 1 ∧ 1 ≤ 1 ∧
      1 ∉ [instPrimaryC3].map ServerInstance.index) :=
  have h1 :=
    ((C3_scale_up_guards_and_least_index "remote" "x" false [] cfgSseC3 0).1
      (by decide)).2 rfl
  have h2 :=
    (C3_scale_up_guards_and_least_index "w" "w#1" false [instPrimaryC3] cfgGoodC1 1).2
      (by decide)
  ⟨h1, h2.2.2.2.1, h2.2.2.2.2.1, h2.2.2.2.2.2.1⟩

/- ===== C5: stderr tail bounds ===== -/

set_option maxRecDepth 100000 in
/-- C5 (counterexample): the claim states every captured line in the
stderr tail is at most 1000 characters.  The capture loop truncates long
lines to their first 1000 characters and then appends a three-character
ellipsis, so a 1001-character raw line is stored as 1003 characters. -/
theorem C5_counterexample :
    ¬ (∀ l ∈ onStderrData [] (List.replicate 1001 'a'),
        l.length ≤ MAX_STDERR_LINE_LENGTH) := by
  decide

theorem truncateStderrLine_length_le (l : JsStr) :
    (truncateStderrLine l).length ≤ MAX_STDERR_LINE_LENGTH + 3 := by
  unfold truncateStderrLine MAX_STDERR_LINE_LENGTH
  split
  · simp only [List.length_append, List.length_take, List.length_cons, List.length_nil]
    omega
  · omega

theorem pushStderrLine_mem (b : List JsStr) (x l : JsStr)
    (h : l ∈ pushStderrLine b x) : l ∈ b ∨ l = truncateStderrLine x := by
  unfold pushStderrLine at h
  simp only at h
  have hmem : l ∈ b ++ [truncateStderrLine x] := by
    split at h
    · exact List.mem_of_mem_drop h
    · exact h
  rcases List.mem_append.mp hmem with h2 | h2
  · exact Or.inl h2
  · exact Or.inr (List.mem_singleton.mp h2)

theorem pushStderrLine_length (b : List JsStr) (x : JsStr)
    (h : b.length ≤ MAX_STDERR_LINES) :
    (pushStderrLine b x).length = min MAX_STDERR_LINES (b.length + 1) := by
  unfold pushStderrLine MAX_STDERR_LINES at *
  simp only
  split <;> rename_i hc <;>
    simp only [List.length_append, List.length_singleton, List.length_drop] at hc ⊢ <;>
    omega

theorem pushStderrLine_suffix (b : List JsStr) (x : JsStr) :
    pushStderrLine b x <:+ b ++ [truncateStderrLine x] := by
  unfold pushStderrLine
  simp only
  split
  · exact List.drop_suffix 1 _
  · exact List.suffix_refl _

theorem foldl_push_mem :
    ∀ (lines : List JsStr) (b : List JsStr) (l : JsStr),
      l ∈ lines.foldl pushStderrLine b →
      l ∈ b ∨ ∃ r ∈ lines, l = truncateStderrLine r := by
  intro lines
  induction lines with
  | nil => intro b l h; exact Or.inl h
  | cons x rest ih =>
    intro b l h
    rcases ih (pushStderrLine b x) l h with h2 | ⟨r, hr, hlr⟩
    · rcases pushStderrLine_mem b x l h2 with h3 | h3
      · exact Or.inl h3
      · exact Or.inr ⟨x, by simp, h3⟩
    · exact Or.inr ⟨r, by simp [hr], hlr⟩

theorem foldl_push_length :
    ∀ (lines : List JsStr) (b : List JsStr),
      b.length ≤ MAX_STDERR_LINES →
      (lines.foldl pushStderrLine b).length =
        min MAX_STDERR_LINES (b.length + lines.length) := by
  intro lines
  induction lines with
  | nil =>
    intro b hb
    simp only [List.foldl_nil, List.length_nil, Nat.add_zero]
    omega
  | cons x rest ih =>
    intro b hb
    have h1 := pushStderrLine_length b x hb
    have h2 : (pushStderrLine b x).length ≤ MAX_STDERR_LINES := by omega
    have h3 := ih (pushStderrLine b x) h2
    simp only [List.foldl_cons, List.length_cons]
    rw [h3, h1]
    omega

theorem foldl_push_suffix :
    ∀ (lines : List JsStr) (b : List JsStr),
      lines.foldl pushStderrLine b <:+ b ++ lines.map truncateStderrLine := by
  intro lines
  induction lines with
  | nil => intro b; simp
  | cons x rest ih =>
    intro b
    have h1 := ih (pushStderrLine b x)
    have h2 : pushStderrLine b x ++ rest.map truncateStderrLine <:+
        (b ++ [truncateStderrLine x]) ++ rest.map truncateStderrLine := by
      obtain ⟨w, hw⟩ := pushStderrLine_suffix b x
      exact ⟨w, by rw [← List.append_assoc, hw]⟩
    have h3 := h1.trans h2
    simpa [List.append_assoc] using h3

/-- C5 (amended): every captured line in the stderr tail is at most
MAX_STDERR_LINE_LENGTH + 3 = 1003 characters (1000 content characters
plus, for truncated lines, a three-character ellipsis); the tail retains
at most the last MAX_STDERR_LINES = 50 lines, dropping the oldest first:
the resulting buffer is a suffix of the old buffer followed by the
truncated new lines, and its length is the capped sum. -/
theorem C5_amended_stderr_tail_bounds :
    ∀ (buffer : List JsStr) (chunk : JsStr),
      (∀ l ∈ buffer, l.length ≤ MAX_STDERR_LINE_LENGTH + 3) →
      buffer.length ≤ MAX_STDERR_LINES →
      (∀ l ∈ onStderrData buffer chunk, l.length ≤ MAX_STDERR_LINE_LENGTH + 3) ∧
      (onStderrData buffer chunk).length ≤ MAX_STDERR_LINES ∧
      (onStderrData buffer chunk).length =
        min MAX_STDERR_LINES (buffer.length + (chunkLines chunk).length) ∧
      onStderrData buffer chunk <:+ buffer ++ (chunkLines chunk).map truncateStderrLine := by
  intro buffer chunk hlen hcnt
  have hmem : ∀ l ∈ onStderrData buffer chunk, l.length ≤ MAX_STDERR_LINE_LENGTH + 3 := by
    intro l hl
    rcases foldl_push_mem (chunkLines chunk) buffer l hl with h | ⟨r, _, rfl⟩
    · exact hlen l h
    · exact truncateStderrLine_length_le r
  have hlength := foldl_push_length (chunkLines chunk) buffer hcnt
  refine ⟨hmem, ?_, hlength, foldl_push_suffix (chunkLines chunk) buffer⟩
  rw [show onStderrData buffer chunk = (chunkLines chunk).foldl pushStderrLine buffer from rfl]
  omega

/-- C5 (witness): the amended theorem applied to an empty tail and the
two-line chunk ab, cd. -/
theorem C5_witness :
    (onStderrData [] "ab\ncd".data).length =
      min MAX_STDERR_LINES
        (List.length ([] : List JsStr) + (chunkLines "ab\ncd".data).length) ∧
    onStderrData [] "ab\ncd".data <:+
      ([] : List JsStr) ++ (chunkLines "ab\ncd".data).map truncateStderrLine :=
  ⟨(C5_amended_stderr_tail_bounds [] "ab\ncd".data (by simp) (by simp)).2.2.1,
   (C5_amended_stderr_tail_bounds [] "ab\ncd".data (by simp) (by simp)).2.2.2⟩

/- ===== C1: persistence of failed declares ===== -/

theorem lookup_saveLocalConfig_skip (servers : List ManagedServer)
    (store : List (String × ServerConfig)) (n : String)
    (h : ∀ s ∈ servers, isDerivedName s.name = false → s.config.name ≠ n) :
    (saveLocalConfig servers store).lookup n = store.lookup n := by
  induction servers generalizing store with
  | nil => rfl
  | cons s rest ih =>
    have hrest : ∀ t ∈ rest, isDerivedName t.name = false → t.config.name ≠ n :=
      fun t ht => h t (List.mem_cons_of_mem _ ht)
    cases hd : isDerivedName s.name with
    | true => simp only [saveLocalConfig, hd, if_true, ih _ hrest]
    | false =>
      simp only [saveLocalConfig, hd, Bool.false_eq_true, if_false, upsertServerStore,
        ih _ hrest]
      exact lookup_upsertByName_ne _ _ _ _
        (Ne.symm (h s (List.mem_cons_self s rest) hd))

/-- When a non-derived server m appears in the sweep order with no
non-derived server of the same config name after it, the sweep leaves the
store holding exactly the config of m under that name, whatever the
status of m. -/
theorem lookup_saveLocalConfig_writer (pre post : List ManagedServer) (m : ManagedServer)
    (store : List (String × ServerConfig))
    (hnd : isDerivedName m.name = false)
    (hpost : ∀ t ∈ post, isDerivedName t.name = false → t.config.name ≠ m.config.name) :
    (saveLocalConfig (pre ++ m :: post) store).lookup m.config.name = some m.config := by
  induction pre generalizing store with
  | nil =>
    simp only [List.nil_append, saveLocalConfig, hnd, Bool.false_eq_true, if_false,
      upsertServerStore]
    rw [lookup_saveLocalConfig_skip post _ _ hpost, lookup_upsertByName_self]
  | cons s pre ih =>
    simp only [List.cons_append, saveLocalConfig]
    exact ih _

theorem stopServerModel_servers (st : SwarmState) (name : String) :
    (stopServerModel st name).servers =
      st.servers.filter (fun s => !(s.name == name)) := by
  unfold stopServerModel
  by_cases h : st.servers.any (fun s => s.name == name) = true
  · simp [h]
  · have h2 : st.servers.any (fun s => s.name == name) = false := by
      cases hx : st.servers.any (fun s => s.name == name)
      · rfl
      · exact absurd hx h
    simp only [h2, Bool.false_eq_true, if_false]
    refine (List.filter_eq_self.mpr ?_).symm
    intro s hs
    have := List.any_eq_false.mp h2 s hs
    simp [this]

theorem stopServerModel_store_self (st : SwarmState) (name : String)
    (hcoh : ∀ s ∈ st.servers, s.name = s.config.name) :
    (stopServerModel st name).store.lookup name = st.store.lookup name := by
  unfold stopServerModel
  by_cases h : st.servers.any (fun s => s.name == name) = true
  · by_cases hd : isDerivedName name = true
    · simp [h, hd]
    · have hd2 : isDerivedName name = false := by
        cases hx : isDerivedName name
        · rfl
        · exact absurd hx hd
      simp only [h, if_true, hd2, Bool.false_eq_true, if_false]
      apply lookup_saveLocalConfig_skip
      intro s hs _h2
      have h3 : s.name ≠ name := by simpa using (List.mem_filter.mp hs).2
      rw [← hcoh s (List.mem_filter.mp hs).1]
      exact h3
  · simp [h]

theorem addManagedServer_fail_store (cfg : ServerConfig) (st : SwarmState)
    (hcoh : ∀ s ∈ st.servers, s.name = s.config.name) :
    (addManagedServer false cfg st).2.store.lookup cfg.name =
      st.store.lookup cfg.name := by
  have h1 : (addManagedServer false cfg st).2.store =
      (stopServerModel st cfg.name).store := rfl
  rw [h1]
  exact stopServerModel_store_self st cfg.name hcoh

theorem addManagedServer_fail_servers (cfg : ServerConfig) (st : SwarmState) :
    (addManagedServer false cfg st).2.servers =
      st.servers.filter (fun s => !(s.name == cfg.name)) ++
        [⟨cfg.name, cfg, Status.error, some "spawn failed", 0⟩] := by
  have h1 : (addManagedServer false cfg st).2.servers =
      (stopServerModel st cfg.name).servers ++
        [⟨cfg.name, cfg, Status.error, some "spawn failed", 0⟩] := rfl
  rw [h1, stopServerModel_servers]

/-- The success path of a declare sweeps every live non-derived server
config into the store; when the live index ends with a server m whose
name differs from the declared one, the config of m (whatever the status
of m) ends up persisted under the name of m. -/
theorem addManagedServer_ok_store (cfg2 : ServerConfig) (st : SwarmState)
    (pre : List ManagedServer) (m : ManagedServer)
    (hservers : st.servers = pre ++ [m])
    (hnd : isDerivedName m.name = false)
    (hmc : m.name = m.config.name)
    (hne : cfg2.name ≠ m.config.name) :
    (addManagedServer true cfg2 st).2.store.lookup m.config.name = some m.config := by
  have h1 : (addManagedServer true cfg2 st).2.store =
      upsertByName
        (saveLocalConfig
          ((stopServerModel st cfg2.name).servers ++
            [⟨cfg2.name, cfg2, Status.connected, none, 0⟩])
          (stopServerModel st cfg2.name).store)
        cfg2.name cfg2 := rfl
  rw [h1, lookup_upsertByName_ne _ _ _ _ (Ne.symm hne)]
  have hm0 : (m.name == cfg2.name) = false := by
    rw [hmc]
    exact beq_eq_false_iff_ne.mpr (Ne.symm hne)
  have hm1 : (!(m.name == cfg2.name)) = true := by rw [hm0]; rfl
  have h2 : (stopServerModel st cfg2.name).servers =
      pre.filter (fun s => !(s.name == cfg2.name)) ++ [m] := by
    rw [stopServerModel_servers, hservers, List.filter_append]
    simp [List.filter_cons, hm1]
  rw [h2, List.append_assoc]
  exact lookup_saveLocalConfig_writer _ _ _ _ hnd (by
    intro t ht _h
    have hteq : t = ⟨cfg2.name, cfg2, Status.connected, none, 0⟩ :=
      List.mem_singleton.mp ht
    rw [hteq]
    exact hne)

/-- C1 (counterexample): the claim states that a declare whose spawn ends
in ERROR never gets its configuration written to the store, neither by
the tool handler nor by any later save sweep.  Concretely: declaring
badsrv with a failing spawn writes nothing, but the errored instance
stays in the live index, and the save sweep triggered by the next
successful declare (goodsrv) persists the badsrv config. -/
theorem C1_counterexample :
    (addManagedServer false cfgBadC1 (SwarmState.mk [] [])).2.store.lookup "badsrv" =
        none ∧
    (addManagedServer true cfgGoodC1
        (addManagedServer false cfgBadC1 (SwarmState.mk [] [])).2).2.store.lookup
        "badsrv" = some cfgBadC1 := by
  decide

/-- C1 (amended): on the declare path the tool handler itself persists
the configuration only when the spawn reached CONNECTED — a failed spawn
returns an error result and leaves the store entry for that name
unchanged.  However the errored instance remains in the live index, and
because saveLocalConfig sweeps every non-derived live server regardless
of status, the next save sweep (here: a later successful declare of a
different worker) persists the failed configuration after all.  (The
coherence hypothesis — each live server is indexed under its config
name — is an invariant of the source, where managed.name is always
config.name.) -/
theorem C1_amended_failed_config_persisted_by_sweep :
    ∀ (cfg cfg2 : ServerConfig) (st : SwarmState),
      (∀ s ∈ st.servers, s.name = s.config.name) →
      isDerivedName cfg.name = false →
      cfg2.name ≠ cfg.name →
      ((addManagedServer false cfg st).1 = true ∧
        (addManagedServer false cfg st).2.store.lookup cfg.name =
          st.store.lookup cfg.name) ∧
      (∃ m ∈ (addManagedServer false cfg st).2.servers,
        m.name = cfg.name ∧ m.status = Status.error ∧ m.config = cfg) ∧
      (addManagedServer true cfg2
          (addManagedServer false cfg st).2).2.store.lookup cfg.name = some cfg := by
  intro cfg cfg2 st hcoh hnd hne
  refine ⟨⟨rfl, addManagedServer_fail_store cfg st hcoh⟩, ?_, ?_⟩
  · refine ⟨⟨cfg.name, cfg, Status.error, some "spawn failed", 0⟩, ?_, rfl, rfl, rfl⟩
    rw [addManagedServer_fail_servers]
    exact List.mem_append.mpr (Or.inr (List.mem_singleton.mpr rfl))
  · exact addManagedServer_ok_store cfg2 (addManagedServer false cfg st).2
      (st.servers.filter (fun s => !(s.name == cfg.name)))
      ⟨cfg.name, cfg, Status.error, some "spawn failed", 0⟩
      (addManagedServer_fail_servers cfg st) hnd rfl hne

/-- C1 (witness): the amended theorem applied to the failing declare of
badsrv followed by the successful declare of goodsrv, from the empty
state. -/
theorem C1_witness :
    ((addManagedServer false cfgBadC1 (SwarmState.mk [] [])).1 = true ∧
      (addManagedServer false cfgBadC1 (SwarmState.mk [] [])).2.store.lookup
        cfgBadC1.name = (SwarmState.mk [] []).store.lookup cfgBadC1.name) ∧
    (addManagedServer true cfgGoodC1
        (addManagedServer false cfgBadC1 (SwarmState.mk [] [])).2).2.store.lookup
        cfgBadC1.name = some cfgBadC1 :=
  have H := C1_amended_failed_config_persisted_by_sweep cfgBadC1 cfgGoodC1
    (SwarmState.mk [] []) (by intro s hs; cases hs) (by decide) (by decide)
  ⟨H.1, H.2.2⟩

end McpSwarm
